import Mathlib

/-!
Shallow embedding of the cross-chain bridge event listener (src/script.py).

The embedding models:
  * `TransactionStatus`, `TxRecord`, `TxManager`  — the in-memory transaction
    store (`CrossChainTransactionManager`): a Python dict preserving insertion
    order is modelled as a `List TxRecord` together with a fresh-id counter
    (uuid generation is modelled by the counter; `time.time()` timestamps by a
    logical clock that ticks on every store mutation).
  * `get_latest_block_number`, raw log queries — the `BlockchainConnector`.
    Connectivity and RPC results are environment inputs to each scan cycle;
    `get_latest_block_number` returns the -1 sentinel exactly as the code does.
  * `BridgeContractEventHandler.decode_log` is an opaque external capability:
    each raw log in a scan input carries its decode result
    (`Option DepositEvent` / `Option CompletionEvent`), `none` meaning
    unrecognized or undecodable.
  * `simulate_relay_action` — the relay dispatch, with the HTTP outcome
    (`RelayResponse`) supplied by the environment.  The returned `Nat` counts
    outbound network calls actually attempted (`requests.post`).
  * `process_source_chain_events`, `process_destination_chain_events`,
    `run_iteration` — the orchestrator (`EventListenerService`).  The
    destination scan can raise (indexing `relayed_txs[0]` on an empty list);
    the `raised` flag of its report models the exception escaping to the main
    loop, which then sleeps the 60s backoff instead of the poll interval.
    `KeyboardInterrupt`/stop-flag handling is not modelled (no claim needs it).
-/

namespace BridgeListener

/-- Status of a cross-chain transaction (`TransactionStatus` in the code). -/
inductive TransactionStatus where
  | PENDING
  | RELAYED
  | COMPLETED
  | FAILED
deriving DecidableEq, Repr, Fintype

/-- Decoded arguments of a `DepositInitiated(address,address,uint256,uint256)` event. -/
structure DepositArgs where
  from_addr : String
  to_addr : String
  amount : Nat
  source_chain_id : Nat
deriving DecidableEq, Repr

/-- A decoded `DepositInitiated` log, as produced by `decode_log` on the source chain. -/
structure DepositEvent where
  transactionHash : String
  args : DepositArgs
deriving DecidableEq, Repr

/-- A decoded `TransferCompleted` log, as produced by `decode_log` on the
destination chain.  The orchestrator only reads its `transactionHash`. -/
structure CompletionEvent where
  transactionHash : String
  source_tx_hash_arg : String := ""
  recipient : String := ""
  amount : Nat := 0
deriving DecidableEq, Repr

/-- One transaction record, the dict stored in
`CrossChainTransactionManager.transactions`.  `dest_tx_hash` and `error` are
the keys merged in by `update_transaction_status` details. -/
structure TxRecord where
  id : Nat
  status : TransactionStatus
  source_tx_hash : String
  details : DepositArgs
  created_at : Nat
  updated_at : Nat
  dest_tx_hash : Option String := none
  error : Option String := none
deriving DecidableEq, Repr

/-- The extra-details dict passed to `update_transaction_status`: the code only
ever passes `\x7b'error': ...\x7d` or `\x7b'dest_tx_hash': ...\x7d`. -/
structure UpdateDetails where
  error : Option String := none
  dest_tx_hash : Option String := none
deriving DecidableEq, Repr

/-- Merge the details dict into a record (`self.transactions[tx_id].update(details)`). -/
def TxRecord.applyDetails (r : TxRecord) (d : UpdateDetails) : TxRecord :=
  { r with
    error := d.error.orElse (fun _ => r.error),
    dest_tx_hash := d.dest_tx_hash.orElse (fun _ => r.dest_tx_hash) }

/-- The in-memory transaction store (`CrossChainTransactionManager`).  The dict
(keyed by generated id, insertion-ordered) is a list of records; `nextId`
models fresh uuid generation, `clock` models `time.time()`. -/
structure TxManager where
  transactions : List TxRecord
  nextId : Nat
  clock : Nat
deriving DecidableEq, Repr

/-- Ids currently stored, in insertion order. -/
def txIds (m : TxManager) : List Nat :=
  m.transactions.map (fun r => r.id)

/-- Dict lookup `self.transactions[tx_id]` / `tx_id in self.transactions`. -/
def lookupTx (m : TxManager) (tx_id : Nat) : Option TxRecord :=
  m.transactions.find? (fun r => r.id == tx_id)

/-- The record built by `initiate_transaction` before insertion. -/
def newRecord (m : TxManager) (ev : DepositEvent) : TxRecord :=
  { id := m.nextId
    status := .PENDING
    source_tx_hash := ev.transactionHash
    details := ev.args
    created_at := m.clock
    updated_at := m.clock }

/-- `CrossChainTransactionManager.initiate_transaction`: create a new record
with status PENDING from a decoded `DepositInitiated` event; returns the id. -/
def TxManager.initiate_transaction (m : TxManager) (ev : DepositEvent) :
    TxManager × Nat :=
  ({ transactions := m.transactions ++ [newRecord m ev]
     nextId := m.nextId + 1
     clock := m.clock + 1 }, m.nextId)

/-- `CrossChainTransactionManager.update_transaction_status`: if the id is
present, set the status, refresh `updated_at` and merge the details; otherwise
log a warning and leave the store unchanged. -/
def TxManager.update_transaction_status (m : TxManager) (tx_id : Nat)
    (new_status : TransactionStatus) (d : UpdateDetails) : TxManager :=
  if m.transactions.any (fun r => r.id == tx_id) then
    { m with
      transactions := m.transactions.map (fun r =>
        if r.id == tx_id then
          { r.applyDetails d with status := new_status, updated_at := m.clock }
        else r)
      clock := m.clock + 1 }
  else m

/-- `CrossChainTransactionManager.get_transactions_by_status`: filter the
insertion-ordered record list by status. -/
def TxManager.get_transactions_by_status (m : TxManager)
    (status : TransactionStatus) : List TxRecord :=
  m.transactions.filter (fun tx => tx.status == status)

/-- Outcome of the outbound `requests.post` to the relayer: an HTTP response
with a status code and body, or a raised `requests.exceptions.RequestException`
(network fault or timeout). -/
inductive RelayResponse where
  | httpStatus (code : Nat) (body : String)
  | networkError (msg : String)
deriving DecidableEq, Repr

/-- Python truthiness of `self.config.get('relayer_api_endpoint')`:
`not relayer_endpoint` holds for a missing key or an empty string. -/
def endpointConfigured : Option String → Bool
  | none => false
  | some s => !(s == "")

/-- `EventListenerService._simulate_relay_action`: dispatch one PENDING
transaction to the relayer.  Returns the updated store and the number of
network calls attempted (0 when the endpoint is unconfigured, 1 otherwise).
Only a response with status code exactly 200 yields RELAYED; any other code
or a network error yields FAILED with an error detail. -/
def simulate_relay_action (relayer_endpoint : Option String)
    (resp : RelayResponse) (tx_id : Nat) (m : TxManager) : TxManager × Nat :=
  if endpointConfigured relayer_endpoint = false then
    (m.update_transaction_status tx_id .FAILED
      { error := some "Relayer not configured" }, 0)
  else
    match resp with
    | .httpStatus code _body =>
        if code == 200 then
          (m.update_transaction_status tx_id .RELAYED {}, 1)
        else
          (m.update_transaction_status tx_id .FAILED
            { error := some "Relayer API Error" }, 1)
    | .networkError _msg =>
        (m.update_transaction_status tx_id .FAILED
          { error := some "Relayer network error" }, 1)

/-- `BlockchainConnector.get_latest_block_number`: -1 when not connected or on
an RPC error (`height = none`), otherwise the reported height. -/
def get_latest_block_number (connected : Bool) (height : Option Nat) : Int :=
  if connected then
    match height with
    | some h => (h : Int)
    | none => -1
  else -1

/-- State of the orchestrator (`EventListenerService`): the store, the two
scan cursors, and the relevant configuration. -/
structure ListenerState where
  tx_manager : TxManager
  last_processed_source_block : Int
  last_processed_dest_block : Int
  relayer_endpoint : Option String
  poll_interval : Nat
deriving DecidableEq, Repr

/-- Environment input to one source-chain scan: connectivity, the
`block_number` RPC result (`none` = raised), and the `get_logs` result
(`none` = not connected or raised).  Each raw log is represented by its
`decode_log` result, paired with the relayer's response for the dispatch the
orchestrator performs on that event. -/
structure SourceScanInput where
  connected : Bool
  height : Option Nat
  logs : Option (List (Option (DepositEvent × RelayResponse)))
deriving DecidableEq, Repr

/-- Observables of a source scan, for stating the claims: whether `connect()`
was re-attempted, whether `get_logs` was called, the ids created this cycle,
the number of outbound relay calls, and the scanned block range. -/
structure SourceScanReport where
  reconnect_attempted : Bool := false
  log_query_made : Bool := false
  created_ids : List Nat := []
  network_calls : Nat := 0
  scanned_range : Option (Int × Int) := none
deriving DecidableEq, Repr

/-- The body of the source-scan log loop: for each decodable log, create a
PENDING record and immediately dispatch it to the relayer; undecodable logs
are skipped.  Returns the store, created ids and network-call count. -/
def process_logs_source (endpoint : Option String) :
    TxManager → List (Option (DepositEvent × RelayResponse)) →
    TxManager × List Nat × Nat
  | m, [] => (m, [], 0)
  | m, none :: rest => process_logs_source endpoint m rest
  | m, some (ev, resp) :: rest =>
      let ini := m.initiate_transaction ev
      let rel := simulate_relay_action endpoint resp ini.2 ini.1
      let res := process_logs_source endpoint rel.1 rest
      (res.1, ini.2 :: res.2.1, rel.2 + res.2.2)

/-- `EventListenerService._process_source_chain_events`: skip and reconnect if
disconnected; skip if the latest height is not above the cursor; otherwise
query logs on `[cursor+1, latest]`, handle each decodable deposit event, and
advance the cursor to the latest height unconditionally. -/
def process_source_chain_events (st : ListenerState) (inp : SourceScanInput) :
    ListenerState × SourceScanReport :=
  if inp.connected = false then
    (st, { reconnect_attempted := true })
  else
    let latest_block := get_latest_block_number inp.connected inp.height
    if latest_block ≤ st.last_processed_source_block then (st, {})
    else
      let from_block := st.last_processed_source_block + 1
      let res :=
        match inp.logs with
        | some (l :: ls) =>
            process_logs_source st.relayer_endpoint st.tx_manager (l :: ls)
        | _ => (st.tx_manager, [], 0)
      ({ st with
          tx_manager := res.1
          last_processed_source_block := latest_block },
       { log_query_made := true
         created_ids := res.2.1
         network_calls := res.2.2
         scanned_range := some (from_block, latest_block) })

/-- Environment input to one destination-chain scan; each raw log is
represented by its `decode_log` result (`none` = unrecognized). -/
structure DestScanInput where
  connected : Bool
  height : Option Nat
  logs : Option (List (Option CompletionEvent))
deriving DecidableEq, Repr

/-- Observables of a destination scan.  `raised = true` models the
`IndexError` from `relayed_txs[0]` escaping the scan. -/
structure DestScanReport where
  reconnect_attempted : Bool := false
  log_query_made : Bool := false
  raised : Bool := false
  scanned_range : Option (Int × Int) := none
deriving DecidableEq, Repr

/-- The destination-scan correlation loop: for each decodable completion
event, complete the head of the local `relayed_txs` working list and pop it.
When the working list is exhausted but another decoded event arrives,
`relayed_txs[0]` raises: the Bool result is the raised flag, and the returned
store keeps the updates already applied before the raise. -/
def complete_loop (m : TxManager) (relayed : List TxRecord) :
    List (Option CompletionEvent) → TxManager × Bool
  | [] => (m, false)
  | none :: rest => complete_loop m relayed rest
  | some ev :: rest =>
      match relayed with
      | [] => (m, true)
      | tx :: rtail =>
          complete_loop
            (m.update_transaction_status tx.id .COMPLETED
              { dest_tx_hash := some ev.transactionHash })
            rtail rest

/-- `EventListenerService._process_destination_chain_events`: skip and
reconnect if disconnected; skip if the latest height is not above the cursor;
otherwise query logs.  On a truthy (non-empty) log list, snapshot the RELAYED
records; if none, return early with the cursor unchanged; otherwise run the
correlation loop — if it raises, the cursor is left unadvanced and the
exception escapes; otherwise (and also when the log query fails or returns an
empty list) advance the cursor to the latest height. -/
def process_destination_chain_events (st : ListenerState) (inp : DestScanInput) :
    ListenerState × DestScanReport :=
  if inp.connected = false then
    (st, { reconnect_attempted := true })
  else
    let latest_block := get_latest_block_number inp.connected inp.height
    if latest_block ≤ st.last_processed_dest_block then (st, {})
    else
      let from_block := st.last_processed_dest_block + 1
      match inp.logs with
      | some (l :: ls) =>
          let relayed_txs := st.tx_manager.get_transactions_by_status .RELAYED
          if relayed_txs.isEmpty then
            (st, { log_query_made := true
                   scanned_range := some (from_block, latest_block) })
          else
            let res := complete_loop st.tx_manager relayed_txs (l :: ls)
            if res.2 then
              ({ st with tx_manager := res.1 },
               { log_query_made := true
                 raised := true
                 scanned_range := some (from_block, latest_block) })
            else
              ({ st with
                  tx_manager := res.1
                  last_processed_dest_block := latest_block },
               { log_query_made := true
                 scanned_range := some (from_block, latest_block) })
      | _ =>
          ({ st with last_processed_dest_block := latest_block },
           { log_query_made := true
             scanned_range := some (from_block, latest_block) })

/-- Environment input for a whole main-loop iteration. -/
structure CycleInput where
  src : SourceScanInput
  dst : DestScanInput
deriving DecidableEq, Repr

/-- One iteration of `EventListenerService.run`: source scan, then destination
scan, then sleep.  The returned `Nat` is the sleep duration: the poll interval
normally, 60 seconds (the extended backoff) when an unhandled error escaped
a scan and was caught at the loop boundary. -/
def run_iteration (st : ListenerState) (inp : CycleInput) : ListenerState × Nat :=
  let s1 := process_source_chain_events st inp.src
  let s2 := process_destination_chain_events s1.1 inp.dst
  if s2.2.raised then (s2.1, 60) else (s2.1, st.poll_interval)

/-- One main-loop cycle with some environment input. -/
def CycleStep (st st' : ListenerState) : Prop :=
  ∃ inp, st' = (run_iteration st inp).1

/-- Any run of the orchestrator: finitely many cycles. -/
def Run : ListenerState → ListenerState → Prop :=
  Relation.ReflTransGen CycleStep

/-- `EventListenerService.__init__` (the state it builds): an empty store and
scan cursors from `config.get('start_block_*', connector.get_latest_block_number())`;
`poll_interval` defaults to 15 as in `self.config.get('poll_interval', 15)`. -/
def init_listener (start_block_source start_block_dest : Option Int)
    (src_connected dst_connected : Bool) (src_height dst_height : Option Nat)
    (endpoint : Option String) (poll : Option Nat) : ListenerState :=
  { tx_manager := { transactions := [], nextId := 0, clock := 0 }
    last_processed_source_block :=
      start_block_source.getD (get_latest_block_number src_connected src_height)
    last_processed_dest_block :=
      start_block_dest.getD (get_latest_block_number dst_connected dst_height)
    relayer_endpoint := endpoint
    poll_interval := poll.getD 15 }

/-- Well-formedness of the store, an invariant of all reachable states: ids
are pairwise distinct and below the fresh-id counter. -/
def StoreWF (m : TxManager) : Prop :=
  (txIds m).Nodup ∧ ∀ i ∈ txIds m, i < m.nextId

/-- The reachability order on statuses induced by the state machine
PENDING → RELAYED → COMPLETED, PENDING/RELAYED → FAILED. -/
def status_can_reach : TransactionStatus → TransactionStatus → Bool
  | .PENDING, _ => true
  | .RELAYED, .PENDING => false
  | .RELAYED, _ => true
  | .COMPLETED, .COMPLETED => true
  | .FAILED, .FAILED => true
  | _, _ => false

/-- Modelled from the spec: a "success status code" in the HTTP sense is any
2xx code ("expects a success status code; any other status or network fault is
a dispatch failure").  To be compared with the code, which tests
`response.status_code == 200` only. -/
def successStatusCode (code : Nat) : Bool :=
  decide (200 ≤ code) && decide (code < 300)

/-! ### Concrete fixtures used to instantiate witnesses and counterexamples -/

/-- Sample decoded deposit arguments. -/
def sampleArgs : DepositArgs :=
  { from_addr := "0xfrom", to_addr := "0xto", amount := 42, source_chain_id := 7 }

/-- Sample stored record with a given id and status. -/
def sampleRecord (i : Nat) (s : TransactionStatus) : TxRecord :=
  { id := i, status := s, source_tx_hash := "0xsrc", details := sampleArgs
    created_at := 0, updated_at := 0 }

/-- Empty store, as after `__init__`. -/
def emptyStore : TxManager := { transactions := [], nextId := 0, clock := 0 }

/-- Store holding one PENDING record. -/
def pendingStore1 : TxManager :=
  { transactions := [sampleRecord 0 .PENDING], nextId := 1, clock := 1 }

/-- Store holding one RELAYED record. -/
def relayedStore1 : TxManager :=
  { transactions := [sampleRecord 0 .RELAYED], nextId := 1, clock := 1 }

/-- Store holding three RELAYED records T1, T2, T3 created in order. -/
def relayedStore3 : TxManager :=
  { transactions := [sampleRecord 0 .RELAYED, sampleRecord 1 .RELAYED,
      sampleRecord 2 .RELAYED]
    nextId := 3, clock := 3 }

/-- A listener state with both cursors at 0 and a configured endpoint. -/
def baseState (m : TxManager) : ListenerState :=
  { tx_manager := m
    last_processed_source_block := 0
    last_processed_dest_block := 0
    relayer_endpoint := some "https://api.example.com/relay"
    poll_interval := 15 }

/-- Source-scan input where the connected height query fails (Unavailable). -/
def unavailableSourceInput : SourceScanInput :=
  { connected := true, height := none, logs := none }

/-- Destination-scan input with two recognized completion events at height 5. -/
def twoCompletionsInput : DestScanInput :=
  { connected := true, height := some 5
    logs := some [some { transactionHash := "0xd1" }
      , some { transactionHash := "0xd2" }] }

/-- Cycle input whose source half is disconnected and whose destination half
carries the two completion events. -/
def overflowCycleInput : CycleInput :=
  { src := { connected := false, height := none, logs := none }
    dst := twoCompletionsInput }

/-! ### Store lemmas -/

lemma find?_append_some {α : Type} {l1 l2 : List α} {p : α → Bool} {a : α}
    (h : l1.find? p = some a) : (l1 ++ l2).find? p = some a := by
  induction l1 with
  | nil => simp [List.find?] at h
  | cons x xs ih =>
    by_cases hx : p x
    · rw [List.find?_cons_of_pos _ hx] at h
      cases h
      simpa using List.find?_cons_of_pos (xs ++ l2) hx
    · rw [List.find?_cons_of_neg _ hx] at h
      simpa [List.find?_cons_of_neg _ hx] using ih h

lemma find?_append_none {α : Type} {l1 : List α} (l2 : List α) {p : α → Bool}
    (h : l1.find? p = none) : (l1 ++ l2).find? p = l2.find? p := by
  induction l1 with
  | nil => simp
  | cons x xs ih =>
    by_cases hx : p x
    · rw [List.find?_cons_of_pos _ hx] at h; cases h
    · rw [List.find?_cons_of_neg _ hx] at h
      simpa [List.find?_cons_of_neg _ hx] using ih h

lemma lookupTx_some_id {m : TxManager} {i : Nat} {r : TxRecord}
    (h : lookupTx m i = some r) : r.id = i := by
  have := List.find?_some h
  simpa using this

lemma lookupTx_mem {m : TxManager} {i : Nat} {r : TxRecord}
    (h : lookupTx m i = some r) : r ∈ m.transactions :=
  List.mem_of_find?_eq_some h

lemma applyDetails_id (r : TxRecord) (d : UpdateDetails) :
    (r.applyDetails d).id = r.id := rfl

/-- The record `update_transaction_status` writes at `tx_id` when the id is
present. -/
def updatedRecord (m : TxManager) (s : TransactionStatus) (d : UpdateDetails)
    (r : TxRecord) : TxRecord :=
  { r.applyDetails d with status := s, updated_at := m.clock }

lemma find?_map_id_preserving {g : TxRecord → TxRecord}
    (hg : ∀ r, (g r).id = r.id) (l : List TxRecord) (j : Nat) :
    (l.map g).find? (fun r => r.id == j) =
      (l.find? (fun r => r.id == j)).map g := by
  rw [List.find?_map]
  have hp : ((fun r : TxRecord => r.id == j) ∘ g) =
      (fun r : TxRecord => r.id == j) := by
    funext r
    simp [Function.comp, hg r]
  rw [hp]

lemma lookupTx_update (m : TxManager) (tx_id : Nat) (s : TransactionStatus)
    (d : UpdateDetails) (j : Nat) :
    lookupTx (m.update_transaction_status tx_id s d) j =
      (lookupTx m j).map (fun r =>
        if r.id == tx_id then updatedRecord m s d r else r) := by
  unfold TxManager.update_transaction_status
  by_cases hany : m.transactions.any (fun r => r.id == tx_id) = true
  · rw [if_pos hany]
    show (m.transactions.map _).find? _ = _
    exact find?_map_id_preserving (fun r => by
      by_cases hid : (r.id == tx_id) = true <;>
        simp [hid, updatedRecord, TxRecord.applyDetails]) m.transactions j
  · rw [if_neg hany]
    have key : ∀ r ∈ m.transactions, (r.id == tx_id) = false := by
      intro r hr
      by_contra hc
      apply hany
      exact List.any_eq_true.mpr ⟨r, hr, by simpa using hc⟩
    cases hfind : lookupTx m j with
    | none => simp [hfind]
    | some r =>
      have hmem := lookupTx_mem hfind
      have hne : ¬ r.id = tx_id := by simpa using key r hmem
      simp [hfind, hne]

lemma lookupTx_update_ne {m : TxManager} {tx_id j : Nat}
    (s : TransactionStatus) (d : UpdateDetails) (h : j ≠ tx_id) :
    lookupTx (m.update_transaction_status tx_id s d) j = lookupTx m j := by
  rw [lookupTx_update]
  cases hfind : lookupTx m j with
  | none => simp
  | some r =>
    have : r.id = j := lookupTx_some_id hfind
    simp [this, h]

lemma lookupTx_update_self {m : TxManager} {tx_id : Nat} {r : TxRecord}
    (s : TransactionStatus) (d : UpdateDetails)
    (h : lookupTx m tx_id = some r) :
    lookupTx (m.update_transaction_status tx_id s d) tx_id =
      some (updatedRecord m s d r) := by
  rw [lookupTx_update, h]
  have : r.id = tx_id := lookupTx_some_id h
  simp [this]

lemma update_txIds (m : TxManager) (tx_id : Nat) (s : TransactionStatus)
    (d : UpdateDetails) :
    txIds (m.update_transaction_status tx_id s d) = txIds m := by
  unfold TxManager.update_transaction_status txIds
  by_cases hany : m.transactions.any (fun r => r.id == tx_id) = true
  · rw [if_pos hany]
    show (m.transactions.map _).map _ = _
    rw [List.map_map]
    congr 1
    funext r
    by_cases hid : (r.id == tx_id) = true <;>
      simp [Function.comp, hid, updatedRecord, TxRecord.applyDetails]
  · rw [if_neg hany]

lemma update_nextId (m : TxManager) (tx_id : Nat) (s : TransactionStatus)
    (d : UpdateDetails) :
    (m.update_transaction_status tx_id s d).nextId = m.nextId := by
  unfold TxManager.update_transaction_status
  by_cases hany : m.transactions.any (fun r => r.id == tx_id) <;> simp [hany]

lemma update_length (m : TxManager) (tx_id : Nat) (s : TransactionStatus)
    (d : UpdateDetails) :
    (m.update_transaction_status tx_id s d).transactions.length =
      m.transactions.length := by
  have := update_txIds m tx_id s d
  unfold txIds at this
  have h1 := congrArg List.length this
  simpa using h1

lemma initiate_txIds (m : TxManager) (ev : DepositEvent) :
    txIds (m.initiate_transaction ev).1 = txIds m ++ [m.nextId] := by
  simp [TxManager.initiate_transaction, txIds, newRecord]

lemma initiate_nextId (m : TxManager) (ev : DepositEvent) :
    (m.initiate_transaction ev).1.nextId = m.nextId + 1 := rfl

lemma lookupTx_initiate_of_some {m : TxManager} {j : Nat} {r : TxRecord}
    (ev : DepositEvent) (h : lookupTx m j = some r) :
    lookupTx (m.initiate_transaction ev).1 j = some r := by
  unfold lookupTx TxManager.initiate_transaction at *
  exact find?_append_some h

lemma lookupTx_initiate_fresh {m : TxManager} (ev : DepositEvent)
    (hb : ∀ i ∈ txIds m, i < m.nextId) :
    lookupTx (m.initiate_transaction ev).1 m.nextId = some (newRecord m ev) := by
  unfold lookupTx TxManager.initiate_transaction
  have hnone : m.transactions.find? (fun r => r.id == m.nextId) = none := by
    rw [List.find?_eq_none]
    intro r hr
    have : r.id ∈ txIds m := List.mem_map_of_mem _ hr
    have := hb _ this
    simp
    omega
  rw [find?_append_none _ hnone]
  simp [newRecord]

lemma StoreWF_update {m : TxManager} (tx_id : Nat) (s : TransactionStatus)
    (d : UpdateDetails) (h : StoreWF m) :
    StoreWF (m.update_transaction_status tx_id s d) := by
  unfold StoreWF at *
  rw [update_txIds, update_nextId]
  exact h

lemma StoreWF_initiate {m : TxManager} (ev : DepositEvent) (h : StoreWF m) :
    StoreWF (m.initiate_transaction ev).1 := by
  unfold StoreWF at *
  rw [initiate_txIds, initiate_nextId]
  constructor
  · rw [List.nodup_append]
    refine ⟨h.1, List.nodup_singleton _, ?_⟩
    intro i hi hj
    have := h.2 i hi
    simp at hj
    omega
  · intro i hi
    rcases List.mem_append.mp hi with hi | hi
    · have := h.2 i hi; omega
    · simp at hi; omega

lemma find?_of_mem_nodup {l : List TxRecord} {r : TxRecord}
    (hnd : (l.map (fun x => x.id)).Nodup) (hr : r ∈ l) :
    l.find? (fun x => x.id == r.id) = some r := by
  induction l with
  | nil => simp at hr
  | cons a t ih =>
    rw [List.map_cons, List.nodup_cons] at hnd
    rcases List.mem_cons.mp hr with hr' | hr'
    · subst hr'
      exact List.find?_cons_of_pos _ (by simp)
    · have hne : a.id ≠ r.id := by
        intro hcontra
        exact hnd.1 (hcontra ▸ List.mem_map_of_mem _ hr')
      rw [List.find?_cons_of_neg _ (by simp [hne])]
      exact ih hnd.2 hr'

lemma lookupTx_of_mem {m : TxManager} {r : TxRecord}
    (hnd : (txIds m).Nodup) (hr : r ∈ m.transactions) :
    lookupTx m r.id = some r :=
  find?_of_mem_nodup (by simpa [txIds] using hnd) hr

/-! ### Correlation-loop lemmas -/

lemma complete_loop_txIds (logs : List (Option CompletionEvent)) :
    ∀ (m : TxManager) (relayed : List TxRecord),
      txIds (complete_loop m relayed logs).1 = txIds m ∧
      (complete_loop m relayed logs).1.nextId = m.nextId := by
  induction logs with
  | nil => intro m relayed; exact ⟨rfl, rfl⟩
  | cons l rest ih =>
    intro m relayed
    cases l with
    | none => simpa [complete_loop] using ih m relayed
    | some ev =>
      cases relayed with
      | nil => exact ⟨rfl, rfl⟩
      | cons tx rtail =>
        have h := ih (m.update_transaction_status tx.id .COMPLETED
          { dest_tx_hash := some ev.transactionHash }) rtail
        simp only [complete_loop]
        exact ⟨h.1.trans (update_txIds _ _ _ _), h.2.trans (update_nextId _ _ _ _)⟩

lemma StoreWF_complete_loop {m : TxManager} {relayed : List TxRecord}
    (logs : List (Option CompletionEvent)) (h : StoreWF m) :
    StoreWF (complete_loop m relayed logs).1 := by
  unfold StoreWF at *
  rw [(complete_loop_txIds logs m relayed).1, (complete_loop_txIds logs m relayed).2]
  exact h

lemma complete_loop_raised (logs : List (Option CompletionEvent)) :
    ∀ (m : TxManager) (relayed : List TxRecord),
      ((complete_loop m relayed logs).2 = false ↔
        (logs.filterMap id).length ≤ relayed.length) := by
  induction logs with
  | nil => intro m relayed; simp [complete_loop]
  | cons l rest ih =>
    intro m relayed
    cases l with
    | none => simpa [complete_loop, List.filterMap_cons] using ih m relayed
    | some ev =>
      cases relayed with
      | nil => simp [complete_loop, List.filterMap_cons]
      | cons tx rtail =>
        simp only [complete_loop, List.filterMap_cons, id]
        rw [ih]
        simp

lemma complete_loop_lookup_notmem (logs : List (Option CompletionEvent)) :
    ∀ (m : TxManager) (relayed : List TxRecord) (j : Nat),
      j ∉ relayed.map (fun r => r.id) →
      lookupTx (complete_loop m relayed logs).1 j = lookupTx m j := by
  induction logs with
  | nil => intro m relayed j _; rfl
  | cons l rest ih =>
    intro m relayed j hj
    cases l with
    | none => exact ih m relayed j hj
    | some ev =>
      cases relayed with
      | nil => rfl
      | cons tx rtail =>
        simp only [List.map_cons, List.mem_cons, not_or] at hj
        simp only [complete_loop]
        rw [ih _ _ _ (by simpa using hj.2)]
        exact lookupTx_update_ne _ _ hj.1

lemma complete_loop_spec (logs : List (Option CompletionEvent)) :
    ∀ (m : TxManager) (relayed : List TxRecord),
      (∀ r ∈ relayed, lookupTx m r.id = some r) →
      (relayed.map (fun r => r.id)).Nodup →
      (logs.filterMap id).length ≤ relayed.length →
      ∀ i (hi : i < relayed.length),
        (∀ h2 : i < (logs.filterMap id).length,
          ∃ r', lookupTx (complete_loop m relayed logs).1
              (relayed.get ⟨i, hi⟩).id = some r' ∧
            r'.status = .COMPLETED ∧
            r'.dest_tx_hash =
              some ((logs.filterMap id).get ⟨i, h2⟩).transactionHash) ∧
        ((logs.filterMap id).length ≤ i →
          lookupTx (complete_loop m relayed logs).1 (relayed.get ⟨i, hi⟩).id =
            some (relayed.get ⟨i, hi⟩)) := by
  induction logs with
  | nil =>
    intro m relayed h1 _ _ i hi
    refine ⟨fun h2 => by simp at h2, fun _ => ?_⟩
    exact h1 _ (List.get_mem relayed i hi)
  | cons l rest ih =>
    intro m relayed h1 hnd hlen i hi
    cases l with
    | none =>
      simpa [complete_loop, List.filterMap_cons] using
        ih m relayed h1 hnd (by simpa [List.filterMap_cons] using hlen) i hi
    | some ev =>
      cases relayed with
      | nil => exact absurd hi (by simp)
      | cons tx rtail =>
        rw [List.map_cons, List.nodup_cons] at hnd
        have hlen' : (rest.filterMap id).length ≤ rtail.length := by
          simpa [List.filterMap_cons] using hlen
        have htx : lookupTx m tx.id = some tx := h1 tx (List.mem_cons_self tx rtail)
        have h1' : ∀ r ∈ rtail,
            lookupTx (m.update_transaction_status tx.id .COMPLETED
              { dest_tx_hash := some ev.transactionHash }) r.id = some r := by
          intro r hr
          have hne : r.id ≠ tx.id := by
            intro hc
            exact hnd.1 (hc ▸ List.mem_map_of_mem _ hr)
          rw [lookupTx_update_ne _ _ hne]
          exact h1 r (List.mem_cons_of_mem _ hr)
        have IH := ih (m.update_transaction_status tx.id .COMPLETED
          { dest_tx_hash := some ev.transactionHash }) rtail h1' hnd.2 hlen'
        cases i with
        | zero =>
          refine ⟨fun h2 => ?_, fun h2 => by simp [List.filterMap_cons] at h2⟩
          have hl1 : lookupTx (m.update_transaction_status tx.id .COMPLETED
              { dest_tx_hash := some ev.transactionHash }) tx.id =
              some (updatedRecord m .COMPLETED
                { dest_tx_hash := some ev.transactionHash } tx) :=
            lookupTx_update_self _ _ htx
          have hnot : tx.id ∉ rtail.map (fun r => r.id) := hnd.1
          refine ⟨updatedRecord m .COMPLETED
            { dest_tx_hash := some ev.transactionHash } tx, ?_, rfl, ?_⟩
          · simp only [complete_loop, List.get]
            rw [complete_loop_lookup_notmem rest _ _ _ hnot]
            exact hl1
          · simp [List.filterMap_cons, updatedRecord, TxRecord.applyDetails,
              Option.orElse]
        | succ i' =>
          have hi' : i' < rtail.length := by simpa using hi
          have := IH i' hi'
          refine ⟨fun h2 => ?_, fun h2 => ?_⟩
          · have h2' : i' < (rest.filterMap id).length := by
              simpa [List.filterMap_cons] using h2
            obtain ⟨r', hr1, hr2, hr3⟩ := this.1 h2'
            refine ⟨r', ?_, hr2, ?_⟩
            · simpa [complete_loop, List.get] using hr1
            · rw [hr3]
              congr 1
          · have h2' : (rest.filterMap id).length ≤ i' := by
              simpa [List.filterMap_cons] using h2
            simpa [complete_loop, List.get] using this.2 h2'

lemma complete_loop_status (logs : List (Option CompletionEvent)) :
    ∀ (m : TxManager) (relayed : List TxRecord),
      (∀ r ∈ relayed, lookupTx m r.id = some r ∧ r.status = .RELAYED) →
      (relayed.map (fun r => r.id)).Nodup →
      ∀ j r r', lookupTx m j = some r →
        lookupTx (complete_loop m relayed logs).1 j = some r' →
        r' = r ∨ (r.status = .RELAYED ∧ r'.status = .COMPLETED) := by
  induction logs with
  | nil =>
    intro m relayed _ _ j r r' h h'
    left
    have : some r' = some r := h'.symm.trans h
    simpa using this
  | cons l rest ih =>
    intro m relayed h1 hnd j r r' h h'
    cases l with
    | none => exact ih m relayed h1 hnd j r r' h h'
    | some ev =>
      cases relayed with
      | nil =>
        left
        have : some r' = some r := h'.symm.trans h
        simpa using this
      | cons tx rtail =>
        rw [List.map_cons, List.nodup_cons] at hnd
        have htx := h1 tx (List.mem_cons_self tx rtail)
        have h1' : ∀ r ∈ rtail,
            lookupTx (m.update_transaction_status tx.id .COMPLETED
              { dest_tx_hash := some ev.transactionHash }) r.id = some r ∧
              r.status = .RELAYED := by
          intro rr hrr
          have hne : rr.id ≠ tx.id := by
            intro hc
            exact hnd.1 (hc ▸ List.mem_map_of_mem _ hrr)
          rw [lookupTx_update_ne _ _ hne]
          exact (h1 rr (List.mem_cons_of_mem _ hrr))
        simp only [complete_loop] at h'
        by_cases hj : j = tx.id
        · subst hj
          have hr_tx : r = tx := by
            have : some r = some tx := h.symm.trans htx.1
            simpa using this
          have hl1 : lookupTx (m.update_transaction_status tx.id .COMPLETED
              { dest_tx_hash := some ev.transactionHash }) tx.id =
              some (updatedRecord m .COMPLETED
                { dest_tx_hash := some ev.transactionHash } tx) :=
            lookupTx_update_self _ _ htx.1
          have := ih _ rtail h1' hnd.2 tx.id _ r' hl1 h'
          rcases this with heq | ⟨hst, _⟩
          · right
            subst heq
            exact ⟨hr_tx ▸ htx.2, rfl⟩
          · exact absurd hst (by simp [updatedRecord])
        · have hl1 : lookupTx (m.update_transaction_status tx.id .COMPLETED
              { dest_tx_hash := some ev.transactionHash }) j = some r := by
            rw [lookupTx_update_ne _ _ hj]
            exact h
          exact ih _ rtail h1' hnd.2 j r r' hl1 h'

/-! ### Source-scan log-loop lemmas -/

lemma simulate_relay_txIds (e : Option String) (resp : RelayResponse)
    (t : Nat) (m : TxManager) :
    txIds (simulate_relay_action e resp t m).1 = txIds m ∧
      (simulate_relay_action e resp t m).1.nextId = m.nextId := by
  unfold simulate_relay_action
  split
  · exact ⟨update_txIds _ _ _ _, update_nextId _ _ _ _⟩
  · cases resp with
    | httpStatus code body =>
      by_cases hc : (code == 200) = true <;>
        simp [hc, update_txIds, update_nextId]
    | networkError msg =>
      exact ⟨update_txIds _ _ _ _, update_nextId _ _ _ _⟩

lemma simulate_relay_lookup_ne (e : Option String) (resp : RelayResponse)
    {t j : Nat} (m : TxManager) (h : j ≠ t) :
    lookupTx (simulate_relay_action e resp t m).1 j = lookupTx m j := by
  unfold simulate_relay_action
  split
  · exact lookupTx_update_ne _ _ h
  · cases resp with
    | httpStatus code body =>
      by_cases hc : (code == 200) = true <;>
        simp [hc, lookupTx_update_ne _ _ h]
    | networkError msg =>
      exact lookupTx_update_ne _ _ h

lemma StoreWF_simulate_relay {m : TxManager} (e : Option String)
    (resp : RelayResponse) (t : Nat) (h : StoreWF m) :
    StoreWF (simulate_relay_action e resp t m).1 := by
  unfold StoreWF at *
  rw [(simulate_relay_txIds e resp t m).1, (simulate_relay_txIds e resp t m).2]
  exact h

lemma process_logs_wf (e : Option String)
    (logs : List (Option (DepositEvent × RelayResponse))) :
    ∀ (m : TxManager), StoreWF m →
      StoreWF (process_logs_source e m logs).1 ∧
      txIds (process_logs_source e m logs).1 =
        txIds m ++ (process_logs_source e m logs).2.1 ∧
      ∀ j r, lookupTx m j = some r →
        lookupTx (process_logs_source e m logs).1 j = some r := by
  induction logs with
  | nil => intro m hwf; exact ⟨hwf, by simp [process_logs_source], fun _ _ h => h⟩
  | cons l rest ih =>
    intro m hwf
    cases l with
    | none => simpa [process_logs_source] using ih m hwf
    | some pair =>
      obtain ⟨ev, resp⟩ := pair
      simp only [process_logs_source]
      have hwf1 : StoreWF (m.initiate_transaction ev).1 := StoreWF_initiate ev hwf
      have hwf2 : StoreWF (simulate_relay_action e resp
          (m.initiate_transaction ev).2 (m.initiate_transaction ev).1).1 :=
        StoreWF_simulate_relay e resp _ hwf1
      obtain ⟨ihwf, ihids, ihlook⟩ := ih _ hwf2
      refine ⟨ihwf, ?_, ?_⟩
      · rw [ihids, (simulate_relay_txIds e resp _ _).1, initiate_txIds]
        simp [TxManager.initiate_transaction]
      · intro j r hj
        apply ihlook
        have hidj : r.id = j := lookupTx_some_id hj
        have hmemj : j ∈ txIds m := by
          rw [← hidj]
          exact List.mem_map_of_mem _ (lookupTx_mem hj)
        have hjlt : j < m.nextId := hwf.2 _ hmemj
        rw [simulate_relay_lookup_ne e resp _ (by
          show j ≠ m.nextId
          omega)]
        exact lookupTx_initiate_of_some ev hj

/-! ### Scan-branch characterizations -/

lemma latest_some (h : Nat) :
    get_latest_block_number true (some h) = (h : Int) := by
  simp [get_latest_block_number]

lemma process_source_disconnected {st : ListenerState} {inp : SourceScanInput}
    (hc : inp.connected = false) :
    process_source_chain_events st inp = (st, { reconnect_attempted := true }) := by
  unfold process_source_chain_events
  rw [if_pos hc]

lemma process_source_uptodate {st : ListenerState} {inp : SourceScanInput}
    (hc : inp.connected = true)
    (hle : get_latest_block_number inp.connected inp.height ≤
      st.last_processed_source_block) :
    process_source_chain_events st inp = (st, {}) := by
  unfold process_source_chain_events
  rw [if_neg (by simp [hc])]
  simp only [if_pos hle]

lemma process_source_scans {st : ListenerState} {inp : SourceScanInput}
    (hc : inp.connected = true)
    (hgt : st.last_processed_source_block <
      get_latest_block_number inp.connected inp.height) :
    process_source_chain_events st inp =
      (let res :=
        match inp.logs with
        | some (l :: ls) =>
            process_logs_source st.relayer_endpoint st.tx_manager (l :: ls)
        | _ => (st.tx_manager, [], 0)
       ({ st with
          tx_manager := res.1
          last_processed_source_block :=
            get_latest_block_number inp.connected inp.height },
        { log_query_made := true
          created_ids := res.2.1
          network_calls := res.2.2
          scanned_range := some (st.last_processed_source_block + 1,
            get_latest_block_number inp.connected inp.height) })) := by
  unfold process_source_chain_events
  rw [if_neg (by simp [hc])]
  simp only [if_neg (not_le.mpr hgt)]

lemma process_dest_disconnected {st : ListenerState} {inp : DestScanInput}
    (hc : inp.connected = false) :
    process_destination_chain_events st inp =
      (st, { reconnect_attempted := true }) := by
  unfold process_destination_chain_events
  rw [if_pos hc]

lemma process_dest_uptodate {st : ListenerState} {inp : DestScanInput}
    (hc : inp.connected = true)
    (hle : get_latest_block_number inp.connected inp.height ≤
      st.last_processed_dest_block) :
    process_destination_chain_events st inp = (st, {}) := by
  unfold process_destination_chain_events
  rw [if_neg (by simp [hc])]
  simp only [if_pos hle]

lemma process_dest_nologs {st : ListenerState} {inp : DestScanInput}
    (hc : inp.connected = true)
    (hgt : st.last_processed_dest_block <
      get_latest_block_number inp.connected inp.height)
    (hlogs : inp.logs = none ∨ inp.logs = some []) :
    process_destination_chain_events st inp =
      ({ st with last_processed_dest_block :=
          get_latest_block_number inp.connected inp.height },
       { log_query_made := true
         scanned_range := some (st.last_processed_dest_block + 1,
           get_latest_block_number inp.connected inp.height) }) := by
  unfold process_destination_chain_events
  rw [if_neg (by simp [hc])]
  simp only [if_neg (not_le.mpr hgt)]
  rcases hlogs with h | h <;> rw [h]

lemma process_dest_no_relayed {st : ListenerState} {inp : DestScanInput}
    {l : Option CompletionEvent} {ls : List (Option CompletionEvent)}
    (hc : inp.connected = true)
    (hgt : st.last_processed_dest_block <
      get_latest_block_number inp.connected inp.height)
    (hlogs : inp.logs = some (l :: ls))
    (hrel : (st.tx_manager.get_transactions_by_status .RELAYED).isEmpty = true) :
    process_destination_chain_events st inp =
      (st, { log_query_made := true
             scanned_range := some (st.last_processed_dest_block + 1,
               get_latest_block_number inp.connected inp.height) }) := by
  unfold process_destination_chain_events
  rw [if_neg (by simp [hc])]
  simp only [if_neg (not_le.mpr hgt)]
  rw [hlogs]
  simp only [if_pos hrel]

lemma process_dest_completes {st : ListenerState} {inp : DestScanInput}
    {l : Option CompletionEvent} {ls : List (Option CompletionEvent)}
    (hc : inp.connected = true)
    (hgt : st.last_processed_dest_block <
      get_latest_block_number inp.connected inp.height)
    (hlogs : inp.logs = some (l :: ls))
    (hrel : (st.tx_manager.get_transactions_by_status .RELAYED).isEmpty = false)
    (hok : (complete_loop st.tx_manager
      (st.tx_manager.get_transactions_by_status .RELAYED) (l :: ls)).2 = false) :
    process_destination_chain_events st inp =
      ({ st with
          tx_manager := (complete_loop st.tx_manager
            (st.tx_manager.get_transactions_by_status .RELAYED) (l :: ls)).1
          last_processed_dest_block :=
            get_latest_block_number inp.connected inp.height },
       { log_query_made := true
         scanned_range := some (st.last_processed_dest_block + 1,
           get_latest_block_number inp.connected inp.height) }) := by
  unfold process_destination_chain_events
  rw [if_neg (by simp [hc])]
  simp only [if_neg (not_le.mpr hgt)]
  rw [hlogs]
  simp only [hrel, Bool.false_eq_true, if_false, hok]

lemma process_dest_raises {st : ListenerState} {inp : DestScanInput}
    {l : Option CompletionEvent} {ls : List (Option CompletionEvent)}
    (hc : inp.connected = true)
    (hgt : st.last_processed_dest_block <
      get_latest_block_number inp.connected inp.height)
    (hlogs : inp.logs = some (l :: ls))
    (hrel : (st.tx_manager.get_transactions_by_status .RELAYED).isEmpty = false)
    (hraise : (complete_loop st.tx_manager
      (st.tx_manager.get_transactions_by_status .RELAYED) (l :: ls)).2 = true) :
    process_destination_chain_events st inp =
      ({ st with
          tx_manager := (complete_loop st.tx_manager
            (st.tx_manager.get_transactions_by_status .RELAYED) (l :: ls)).1 },
       { log_query_made := true
         raised := true
         scanned_range := some (st.last_processed_dest_block + 1,
           get_latest_block_number inp.connected inp.height) }) := by
  unfold process_destination_chain_events
  rw [if_neg (by simp [hc])]
  simp only [if_neg (not_le.mpr hgt)]
  rw [hlogs]
  simp only [hrel, Bool.false_eq_true, if_false, hraise, if_true]

lemma process_source_cursor_mono (st : ListenerState) (inp : SourceScanInput) :
    st.last_processed_source_block ≤
      (process_source_chain_events st inp).1.last_processed_source_block := by
  by_cases hc : inp.connected = false
  · rw [process_source_disconnected hc]
  · have hc' : inp.connected = true := by
      cases h : inp.connected
      · exact absurd h hc
      · rfl
    by_cases hle : get_latest_block_number inp.connected inp.height ≤
        st.last_processed_source_block
    · rw [process_source_uptodate hc' hle]
    · rw [process_source_scans hc' (not_le.mp hle)]
      have := not_le.mp hle
      simp only []
      omega

lemma process_source_dest_cursor (st : ListenerState) (inp : SourceScanInput) :
    (process_source_chain_events st inp).1.last_processed_dest_block =
      st.last_processed_dest_block := by
  by_cases hc : inp.connected = false
  · rw [process_source_disconnected hc]
  · have hc' : inp.connected = true := by
      cases h : inp.connected
      · exact absurd h hc
      · rfl
    by_cases hle : get_latest_block_number inp.connected inp.height ≤
        st.last_processed_source_block
    · rw [process_source_uptodate hc' hle]
    · rw [process_source_scans hc' (not_le.mp hle)]

lemma process_dest_cursor_mono (st : ListenerState) (inp : DestScanInput) :
    st.last_processed_dest_block ≤
      (process_destination_chain_events st inp).1.last_processed_dest_block := by
  by_cases hc : inp.connected = false
  · rw [process_dest_disconnected hc]
  · have hc' : inp.connected = true := by
      cases h : inp.connected
      · exact absurd h hc
      · rfl
    by_cases hle : get_latest_block_number inp.connected inp.height ≤
        st.last_processed_dest_block
    · rw [process_dest_uptodate hc' hle]
    · have hgt := not_le.mp hle
      cases hlogs : inp.logs with
      | none =>
        rw [process_dest_nologs hc' hgt (Or.inl hlogs)]
        simp only []
        omega
      | some logs =>
        cases logs with
        | nil =>
          rw [process_dest_nologs hc' hgt (Or.inr hlogs)]
          simp only []
          omega
        | cons l ls =>
          by_cases hrel : (st.tx_manager.get_transactions_by_status
              .RELAYED).isEmpty = true
          · rw [process_dest_no_relayed hc' hgt hlogs hrel]
          · have hrel' : (st.tx_manager.get_transactions_by_status
                .RELAYED).isEmpty = false := by
              cases h : (st.tx_manager.get_transactions_by_status
                  .RELAYED).isEmpty
              · rfl
              · exact absurd h hrel
            by_cases hrun : (complete_loop st.tx_manager
                (st.tx_manager.get_transactions_by_status .RELAYED)
                (l :: ls)).2 = true
            · rw [process_dest_raises hc' hgt hlogs hrel' hrun]
            · have hok : (complete_loop st.tx_manager
                  (st.tx_manager.get_transactions_by_status .RELAYED)
                  (l :: ls)).2 = false := by
                cases h : (complete_loop st.tx_manager
                    (st.tx_manager.get_transactions_by_status .RELAYED)
                    (l :: ls)).2
                · rfl
                · exact absurd h hrun
              rw [process_dest_completes hc' hgt hlogs hrel' hok]
              simp only []
              omega

lemma process_dest_source_cursor (st : ListenerState) (inp : DestScanInput) :
    (process_destination_chain_events st inp).1.last_processed_source_block =
      st.last_processed_source_block := by
  by_cases hc : inp.connected = false
  · rw [process_dest_disconnected hc]
  · have hc' : inp.connected = true := by
      cases h : inp.connected
      · exact absurd h hc
      · rfl
    by_cases hle : get_latest_block_number inp.connected inp.height ≤
        st.last_processed_dest_block
    · rw [process_dest_uptodate hc' hle]
    · have hgt := not_le.mp hle
      cases hlogs : inp.logs with
      | none => rw [process_dest_nologs hc' hgt (Or.inl hlogs)]
      | some logs =>
        cases logs with
        | nil => rw [process_dest_nologs hc' hgt (Or.inr hlogs)]
        | cons l ls =>
          by_cases hrel : (st.tx_manager.get_transactions_by_status
              .RELAYED).isEmpty = true
          · rw [process_dest_no_relayed hc' hgt hlogs hrel]
          · have hrel' : (st.tx_manager.get_transactions_by_status
                .RELAYED).isEmpty = false := by
              cases h : (st.tx_manager.get_transactions_by_status
                  .RELAYED).isEmpty
              · rfl
              · exact absurd h hrel
            by_cases hrun : (complete_loop st.tx_manager
                (st.tx_manager.get_transactions_by_status .RELAYED)
                (l :: ls)).2 = true
            · rw [process_dest_raises hc' hgt hlogs hrel' hrun]
            · have hok : (complete_loop st.tx_manager
                  (st.tx_manager.get_transactions_by_status .RELAYED)
                  (l :: ls)).2 = false := by
                cases h : (complete_loop st.tx_manager
                    (st.tx_manager.get_transactions_by_status .RELAYED)
                    (l :: ls)).2
                · rfl
                · exact absurd h hrun
              rw [process_dest_completes hc' hgt hlogs hrel' hok]

lemma process_source_manager_cases (st : ListenerState) (inp : SourceScanInput) :
    (process_source_chain_events st inp).1.tx_manager = st.tx_manager ∨
    ∃ l ls, inp.logs = some (l :: ls) ∧
      (process_source_chain_events st inp).1.tx_manager =
        (process_logs_source st.relayer_endpoint st.tx_manager (l :: ls)).1 := by
  by_cases hc : inp.connected = false
  · rw [process_source_disconnected hc]
    exact Or.inl rfl
  · have hc' : inp.connected = true := by simpa using hc
    by_cases hle : get_latest_block_number inp.connected inp.height ≤
        st.last_processed_source_block
    · rw [process_source_uptodate hc' hle]
      exact Or.inl rfl
    · rw [process_source_scans hc' (not_le.mp hle)]
      cases hlogs : inp.logs with
      | none => exact Or.inl rfl
      | some logs =>
        cases logs with
        | nil => exact Or.inl rfl
        | cons l ls => exact Or.inr ⟨l, ls, rfl, rfl⟩

lemma process_dest_manager_cases (st : ListenerState) (inp : DestScanInput) :
    (process_destination_chain_events st inp).1.tx_manager = st.tx_manager ∨
    ∃ l ls, inp.logs = some (l :: ls) ∧
      (process_destination_chain_events st inp).1.tx_manager =
        (complete_loop st.tx_manager
          (st.tx_manager.get_transactions_by_status .RELAYED) (l :: ls)).1 := by
  by_cases hc : inp.connected = false
  · rw [process_dest_disconnected hc]
    exact Or.inl rfl
  · have hc' : inp.connected = true := by simpa using hc
    by_cases hle : get_latest_block_number inp.connected inp.height ≤
        st.last_processed_dest_block
    · rw [process_dest_uptodate hc' hle]
      exact Or.inl rfl
    · have hgt := not_le.mp hle
      cases hlogs : inp.logs with
      | none =>
        rw [process_dest_nologs hc' hgt (Or.inl hlogs)]
        exact Or.inl rfl
      | some logs =>
        cases logs with
        | nil =>
          rw [process_dest_nologs hc' hgt (Or.inr hlogs)]
          exact Or.inl rfl
        | cons l ls =>
          by_cases hrel : (st.tx_manager.get_transactions_by_status
              .RELAYED).isEmpty = true
          · rw [process_dest_no_relayed hc' hgt hlogs hrel]
            exact Or.inl rfl
          · have hrel' : (st.tx_manager.get_transactions_by_status
                .RELAYED).isEmpty = false := by simpa using hrel
            by_cases hrun : (complete_loop st.tx_manager
                (st.tx_manager.get_transactions_by_status .RELAYED)
                (l :: ls)).2 = true
            · rw [process_dest_raises hc' hgt hlogs hrel' hrun]
              exact Or.inr ⟨l, ls, rfl, rfl⟩
            · have hok : (complete_loop st.tx_manager
                  (st.tx_manager.get_transactions_by_status .RELAYED)
                  (l :: ls)).2 = false := by simpa using hrun
              rw [process_dest_completes hc' hgt hlogs hrel' hok]
              exact Or.inr ⟨l, ls, rfl, rfl⟩

/-! ### Status machine infrastructure -/

lemma status_can_reach_refl : ∀ s, status_can_reach s s = true := by decide

lemma status_can_reach_trans : ∀ a b c, status_can_reach a b = true →
    status_can_reach b c = true → status_can_reach a c = true := by decide

lemma lookupTx_isSome_of_mem_txIds {m : TxManager} {j : Nat}
    (h : j ∈ txIds m) : ∃ r, lookupTx m j = some r := by
  unfold txIds at h
  obtain ⟨r, hr, hid⟩ := List.mem_map.mp h
  cases hfind : lookupTx m j with
  | none =>
    exfalso
    rw [lookupTx, List.find?_eq_none] at hfind
    exact hfind r hr (by simp [hid])
  | some r' => exact ⟨r', rfl⟩

lemma relayed_props {m : TxManager} (hwf : StoreWF m) :
    (∀ r ∈ m.get_transactions_by_status .RELAYED,
      lookupTx m r.id = some r ∧ r.status = .RELAYED) ∧
    ((m.get_transactions_by_status .RELAYED).map (fun r => r.id)).Nodup := by
  constructor
  · intro r hr
    have hmem := List.mem_filter.mp hr
    refine ⟨lookupTx_of_mem hwf.1 hmem.1, ?_⟩
    have := hmem.2
    simpa using this
  · have hsub : List.Sublist
        ((m.get_transactions_by_status .RELAYED).map (fun r => r.id))
        (m.transactions.map (fun r => r.id)) :=
      (List.filter_sublist _).map _
    exact List.Nodup.sublist hsub hwf.1

lemma StoreWF_process_source (st : ListenerState) (inp : SourceScanInput)
    (hwf : StoreWF st.tx_manager) :
    StoreWF (process_source_chain_events st inp).1.tx_manager := by
  rcases process_source_manager_cases st inp with h | ⟨l, ls, _, h⟩
  · rw [h]; exact hwf
  · rw [h]; exact (process_logs_wf _ _ _ hwf).1

lemma process_source_lookup (st : ListenerState) (inp : SourceScanInput)
    (hwf : StoreWF st.tx_manager) {j : Nat} {r : TxRecord}
    (h : lookupTx st.tx_manager j = some r) :
    lookupTx (process_source_chain_events st inp).1.tx_manager j = some r := by
  rcases process_source_manager_cases st inp with hcase | ⟨l, ls, _, hcase⟩
  · rw [hcase]; exact h
  · rw [hcase]; exact (process_logs_wf _ _ _ hwf).2.2 j r h

lemma StoreWF_process_dest (st : ListenerState) (inp : DestScanInput)
    (hwf : StoreWF st.tx_manager) :
    StoreWF (process_destination_chain_events st inp).1.tx_manager := by
  rcases process_dest_manager_cases st inp with h | ⟨l, ls, _, h⟩
  · rw [h]; exact hwf
  · rw [h]; exact StoreWF_complete_loop _ hwf

lemma process_dest_lookup_reach (st : ListenerState) (inp : DestScanInput)
    (hwf : StoreWF st.tx_manager) {j : Nat} {r : TxRecord}
    (h : lookupTx st.tx_manager j = some r) :
    ∃ r', lookupTx (process_destination_chain_events st inp).1.tx_manager j =
        some r' ∧
      (r' = r ∨ (r.status = .RELAYED ∧ r'.status = .COMPLETED)) := by
  rcases process_dest_manager_cases st inp with hcase | ⟨l, ls, _, hcase⟩
  · rw [hcase]; exact ⟨r, h, Or.inl rfl⟩
  · rw [hcase]
    have hjmem : j ∈ txIds (complete_loop st.tx_manager
        (st.tx_manager.get_transactions_by_status .RELAYED) (l :: ls)).1 := by
      rw [(complete_loop_txIds _ _ _).1]
      have := lookupTx_some_id h
      exact this ▸ List.mem_map_of_mem _ (lookupTx_mem h)
    obtain ⟨r', hr'⟩ := lookupTx_isSome_of_mem_txIds hjmem
    exact ⟨r', hr', complete_loop_status (l :: ls) st.tx_manager _
      (relayed_props hwf).1 (relayed_props hwf).2 j r r' h hr'⟩

lemma run_iteration_fst (st : ListenerState) (inp : CycleInput) :
    (run_iteration st inp).1 =
      (process_destination_chain_events
        (process_source_chain_events st inp.src).1 inp.dst).1 := by
  by_cases h : (process_destination_chain_events
      (process_source_chain_events st inp.src).1 inp.dst).2.raised = true <;>
    simp [run_iteration, h]

lemma StoreWF_run_iteration (st : ListenerState) (inp : CycleInput)
    (hwf : StoreWF st.tx_manager) :
    StoreWF (run_iteration st inp).1.tx_manager := by
  rw [run_iteration_fst]
  exact StoreWF_process_dest _ _ (StoreWF_process_source _ _ hwf)

lemma run_iteration_lookup_reach (st : ListenerState) (inp : CycleInput)
    (hwf : StoreWF st.tx_manager) {j : Nat} {r : TxRecord}
    (h : lookupTx st.tx_manager j = some r) :
    ∃ r', lookupTx (run_iteration st inp).1.tx_manager j = some r' ∧
      status_can_reach r.status r'.status = true := by
  rw [run_iteration_fst]
  have h1 := process_source_lookup st inp.src hwf h
  obtain ⟨r', hr', hcase⟩ := process_dest_lookup_reach _ inp.dst
    (StoreWF_process_source st inp.src hwf) h1
  refine ⟨r', hr', ?_⟩
  rcases hcase with rfl | ⟨ha, hb⟩
  · exact status_can_reach_refl _
  · rw [ha, hb]
    rfl

lemma StoreWF_Run {st st' : ListenerState} (h : Run st st')
    (hwf : StoreWF st.tx_manager) : StoreWF st'.tx_manager := by
  induction h with
  | refl => exact hwf
  | tail hab hbc ih =>
    obtain ⟨inp, rfl⟩ := hbc
    exact StoreWF_run_iteration _ _ ih

lemma Run_lookup_reach_ex {st st' : ListenerState} (hrun : Run st st')
    (hwf : StoreWF st.tx_manager) {j : Nat} {r : TxRecord}
    (h : lookupTx st.tx_manager j = some r) :
    ∃ r', lookupTx st'.tx_manager j = some r' ∧
      status_can_reach r.status r'.status = true := by
  induction hrun with
  | refl => exact ⟨r, h, status_can_reach_refl _⟩
  | tail hab hbc ih =>
    obtain ⟨rm, hm, hreach⟩ := ih
    obtain ⟨inp, rfl⟩ := hbc
    obtain ⟨r', h', hreach'⟩ :=
      run_iteration_lookup_reach _ inp (StoreWF_Run hab hwf) hm
    exact ⟨r', h', status_can_reach_trans _ _ _ hreach hreach'⟩

/-! ### Append-only store lemmas -/

lemma process_logs_txIds (e : Option String)
    (logs : List (Option (DepositEvent × RelayResponse))) :
    ∀ (m : TxManager),
      txIds (process_logs_source e m logs).1 =
        txIds m ++ (process_logs_source e m logs).2.1 := by
  induction logs with
  | nil => intro m; simp [process_logs_source]
  | cons l rest ih =>
    intro m
    cases l with
    | none => simpa [process_logs_source] using ih m
    | some pair =>
      obtain ⟨ev, resp⟩ := pair
      simp only [process_logs_source]
      rw [ih, (simulate_relay_txIds _ _ _ _).1, initiate_txIds]
      simp [TxManager.initiate_transaction]

lemma process_source_txIds_extends (st : ListenerState) (inp : SourceScanInput) :
    txIds st.tx_manager <+:
      txIds (process_source_chain_events st inp).1.tx_manager := by
  rcases process_source_manager_cases st inp with h | ⟨l, ls, _, h⟩
  · rw [h]
  · rw [h, process_logs_txIds]
    exact List.prefix_append _ _

lemma process_dest_txIds_extends (st : ListenerState) (inp : DestScanInput) :
    txIds st.tx_manager <+:
      txIds (process_destination_chain_events st inp).1.tx_manager := by
  rcases process_dest_manager_cases st inp with h | ⟨l, ls, _, h⟩
  · rw [h]
  · rw [h, (complete_loop_txIds _ _ _).1]

lemma run_iteration_txIds_extends (st : ListenerState) (inp : CycleInput) :
    txIds st.tx_manager <+: txIds (run_iteration st inp).1.tx_manager := by
  rw [run_iteration_fst]
  exact (process_source_txIds_extends st inp.src).trans
    (process_dest_txIds_extends _ inp.dst)

lemma simulate_relay_length (e : Option String) (resp : RelayResponse)
    (t : Nat) (m : TxManager) :
    (simulate_relay_action e resp t m).1.transactions.length =
      m.transactions.length := by
  have h := congrArg List.length (simulate_relay_txIds e resp t m).1
  simpa [txIds] using h

lemma process_logs_count (e : Option String)
    (logs : List (Option (DepositEvent × RelayResponse))) :
    ∀ (m : TxManager),
      (process_logs_source e m logs).2.1.length =
        logs.countP (fun o => o.isSome) ∧
      (process_logs_source e m logs).1.transactions.length =
        m.transactions.length + logs.countP (fun o => o.isSome) := by
  induction logs with
  | nil => intro m; simp [process_logs_source]
  | cons l rest ih =>
    intro m
    cases l with
    | none => simpa [process_logs_source, List.countP_cons] using ih m
    | some pair =>
      obtain ⟨ev, resp⟩ := pair
      simp only [process_logs_source, List.countP_cons]
      have hinit : (m.initiate_transaction ev).1.transactions.length =
          m.transactions.length + 1 := by
        simp [TxManager.initiate_transaction]
      obtain ⟨ih1, ih2⟩ := ih (simulate_relay_action e resp
        (m.initiate_transaction ev).2 (m.initiate_transaction ev).1).1
      constructor
      · simp [ih1]
      · rw [ih2, simulate_relay_length, hinit]
        simp
        omega

lemma run_iteration_src_cursor_mono (st : ListenerState) (inp : CycleInput) :
    st.last_processed_source_block ≤
      (run_iteration st inp).1.last_processed_source_block := by
  rw [run_iteration_fst, process_dest_source_cursor]
  exact process_source_cursor_mono st inp.src

lemma run_iteration_dest_cursor_mono (st : ListenerState) (inp : CycleInput) :
    st.last_processed_dest_block ≤
      (run_iteration st inp).1.last_processed_dest_block := by
  rw [run_iteration_fst]
  calc st.last_processed_dest_block
      = (process_source_chain_events st inp.src).1.last_processed_dest_block :=
        (process_source_dest_cursor st inp.src).symm
    _ ≤ _ := process_dest_cursor_mono _ inp.dst

lemma process_source_range_cases (st : ListenerState) (inp : SourceScanInput) :
    (process_source_chain_events st inp).2.scanned_range = none ∨
    ((process_source_chain_events st inp).2.scanned_range =
        some (st.last_processed_source_block + 1,
          get_latest_block_number inp.connected inp.height) ∧
      st.last_processed_source_block <
        get_latest_block_number inp.connected inp.height) := by
  by_cases hc : inp.connected = false
  · rw [process_source_disconnected hc]
    exact Or.inl rfl
  · have hc' : inp.connected = true := by simpa using hc
    by_cases hle : get_latest_block_number inp.connected inp.height ≤
        st.last_processed_source_block
    · rw [process_source_uptodate hc' hle]
      exact Or.inl rfl
    · rw [process_source_scans hc' (not_le.mp hle)]
      exact Or.inr ⟨rfl, not_le.mp hle⟩

lemma process_dest_range_cases (st : ListenerState) (inp : DestScanInput) :
    (process_destination_chain_events st inp).2.scanned_range = none ∨
    ((process_destination_chain_events st inp).2.scanned_range =
        some (st.last_processed_dest_block + 1,
          get_latest_block_number inp.connected inp.height) ∧
      st.last_processed_dest_block <
        get_latest_block_number inp.connected inp.height) := by
  by_cases hc : inp.connected = false
  · rw [process_dest_disconnected hc]
    exact Or.inl rfl
  · have hc' : inp.connected = true := by simpa using hc
    by_cases hle : get_latest_block_number inp.connected inp.height ≤
        st.last_processed_dest_block
    · rw [process_dest_uptodate hc' hle]
      exact Or.inl rfl
    · have hgt := not_le.mp hle
      cases hlogs : inp.logs with
      | none =>
        rw [process_dest_nologs hc' hgt (Or.inl hlogs)]
        exact Or.inr ⟨rfl, hgt⟩
      | some logs =>
        cases logs with
        | nil =>
          rw [process_dest_nologs hc' hgt (Or.inr hlogs)]
          exact Or.inr ⟨rfl, hgt⟩
        | cons l ls =>
          by_cases hrel : (st.tx_manager.get_transactions_by_status
              .RELAYED).isEmpty = true
          · rw [process_dest_no_relayed hc' hgt hlogs hrel]
            exact Or.inr ⟨rfl, hgt⟩
          · have hrel' : (st.tx_manager.get_transactions_by_status
                .RELAYED).isEmpty = false := by simpa using hrel
            by_cases hrun : (complete_loop st.tx_manager
                (st.tx_manager.get_transactions_by_status .RELAYED)
                (l :: ls)).2 = true
            · rw [process_dest_raises hc' hgt hlogs hrel' hrun]
              exact Or.inr ⟨rfl, hgt⟩
            · have hok : (complete_loop st.tx_manager
                  (st.tx_manager.get_transactions_by_status .RELAYED)
                  (l :: ls)).2 = false := by simpa using hrun
              rw [process_dest_completes hc' hgt hlogs hrel' hok]
              exact Or.inr ⟨rfl, hgt⟩

/-! ### Claim theorems -/

/-- C4 counterexample: 201 is a success status code in the HTTP sense (2xx),
yet `_simulate_relay_action` marks the transaction FAILED, because the code
accepts only status code exactly 200; so "a success status code ⇒ RELAYED"
is false as stated. -/
theorem C4_counterexample :
    successStatusCode 201 = true ∧
    ∃ r', lookupTx (simulate_relay_action (some "https://api.example.com/relay")
        (.httpStatus 201 "Created") 0 pendingStore1).1 0 = some r' ∧
      r'.status = .FAILED ∧ ¬ r'.status = .RELAYED := by
  refine ⟨by decide, ⟨_, rfl, by decide, by decide⟩⟩

/-- C4 amended: for a relay dispatch with a configured endpoint on an existing
(PENDING) transaction, a response with status code exactly 200 — and only 200,
other 2xx success codes included in the failure side — yields status RELAYED;
any other status code yields FAILED with the non-empty error detail
"Relayer API Error"; a network fault or timeout yields FAILED with the
non-empty error detail "Relayer network error".  Exactly one network call is
attempted, and the dispatch is a total function (all outcomes non-fatal to
the orchestrator). -/
theorem C4_dispatch_amended (endpoint : Option String) (resp : RelayResponse)
    (m : TxManager) (tx_id : Nat) (r : TxRecord)
    (hep : endpointConfigured endpoint = true)
    (hr : lookupTx m tx_id = some r) (_hpend : r.status = .PENDING) :
    (simulate_relay_action endpoint resp tx_id m).2 = 1 ∧
    ∃ r', lookupTx (simulate_relay_action endpoint resp tx_id m).1 tx_id =
        some r' ∧
      (match resp with
       | .httpStatus code _ =>
           if code = 200 then r'.status = .RELAYED
           else r'.status = .FAILED ∧ r'.error = some "Relayer API Error"
       | .networkError _ =>
           r'.status = .FAILED ∧ r'.error = some "Relayer network error") ∧
      ("Relayer API Error" ≠ "" ∧ "Relayer network error" ≠ "") := by
  have hne : ¬ endpointConfigured endpoint = false := by simp [hep]
  cases resp with
  | httpStatus code body =>
    by_cases hcode : code = 200
    · subst hcode
      have heq : simulate_relay_action endpoint (.httpStatus 200 body) tx_id m =
          (m.update_transaction_status tx_id .RELAYED {}, 1) := by
        unfold simulate_relay_action
        rw [if_neg hne]
        rfl
      rw [heq]
      refine ⟨rfl, _, lookupTx_update_self _ _ hr, ?_, by decide⟩
      dsimp only
      rw [if_pos rfl]
      rfl
    · have hbeq : (code == 200) = false := by simpa using hcode
      have heq : simulate_relay_action endpoint (.httpStatus code body) tx_id m =
          (m.update_transaction_status tx_id .FAILED
            { error := some "Relayer API Error" }, 1) := by
        unfold simulate_relay_action
        rw [if_neg hne]
        simp only [hbeq, Bool.false_eq_true, if_false]
      rw [heq]
      refine ⟨rfl, _, lookupTx_update_self _ _ hr, ?_, by decide⟩
      dsimp only
      rw [if_neg hcode]
      exact ⟨rfl, by simp [updatedRecord, TxRecord.applyDetails, Option.orElse]⟩
  | networkError msg =>
    have heq : simulate_relay_action endpoint (.networkError msg) tx_id m =
        (m.update_transaction_status tx_id .FAILED
          { error := some "Relayer network error" }, 1) := by
      unfold simulate_relay_action
      rw [if_neg hne]
    rw [heq]
    refine ⟨rfl, _, lookupTx_update_self _ _ hr, ?_, by decide⟩
    dsimp only
    exact ⟨rfl, by simp [updatedRecord, TxRecord.applyDetails, Option.orElse]⟩

/-- C4 amended witness: concrete dispatch of the PENDING record 0 with a 200
response through a configured endpoint ends RELAYED after one network call. -/
theorem C4_dispatch_amended_witness :
    (simulate_relay_action (some "https://api.example.com/relay")
      (.httpStatus 200 "ok") 0 pendingStore1).2 = 1 ∧
    ∃ r', lookupTx (simulate_relay_action (some "https://api.example.com/relay")
        (.httpStatus 200 "ok") 0 pendingStore1).1 0 = some r' ∧
      r'.status = .RELAYED ∧
      ("Relayer API Error" ≠ "" ∧ "Relayer network error" ≠ "") := by
  have H := C4_dispatch_amended (some "https://api.example.com/relay")
    (.httpStatus 200 "ok") pendingStore1 0 (sampleRecord 0 .PENDING)
    (by decide) (by decide) (by decide)
  obtain ⟨h1, r', h2, h3, h4⟩ := H
  exact ⟨h1, r', h2, h3, h4⟩

/-- C5: when no relay endpoint is configured (missing or empty), the dispatch
makes no network call at all (its outcome does not even depend on the network
response), and the transaction immediately becomes FAILED with the error
detail "Relayer not configured", whose reason text ends in "not configured";
the function is total, so processing continues. -/
theorem C5_not_configured (endpoint : Option String) (resp : RelayResponse)
    (m : TxManager) (tx_id : Nat) (r : TxRecord)
    (hep : endpointConfigured endpoint = false)
    (hr : lookupTx m tx_id = some r) :
    (simulate_relay_action endpoint resp tx_id m).2 = 0 ∧
    (∀ resp', simulate_relay_action endpoint resp' tx_id m =
      simulate_relay_action endpoint resp tx_id m) ∧
    ∃ r', lookupTx (simulate_relay_action endpoint resp tx_id m).1 tx_id =
        some r' ∧
      r'.status = .FAILED ∧ r'.error = some "Relayer not configured" ∧
      "not configured".data <:+ "Relayer not configured".data := by
  unfold simulate_relay_action
  rw [if_pos hep]
  refine ⟨rfl, ?_, _, lookupTx_update_self _ _ hr, rfl,
    by simp [updatedRecord, TxRecord.applyDetails, Option.orElse], by decide⟩
  intro resp'
  rw [if_pos hep]

/-- C5 witness: concrete dispatch of record 0 with a missing endpoint makes
no network call and records the FAILED status with the configured-missing
reason. -/
theorem C5_not_configured_witness :
    (simulate_relay_action none (.networkError "timeout") 0 pendingStore1).2 =
      0 ∧
    ∃ r', lookupTx (simulate_relay_action none (.networkError "timeout") 0
        pendingStore1).1 0 = some r' ∧
      r'.status = .FAILED ∧ r'.error = some "Relayer not configured" ∧
      "not configured".data <:+ "Relayer not configured".data := by
  have H := C5_not_configured none (.networkError "timeout") pendingStore1 0
    (sampleRecord 0 .PENDING) (by decide) (by decide)
  exact ⟨H.1, H.2.2⟩

/-- C6 counterexample: with the connector connected but the current-height
query reporting Unavailable (the -1 sentinel), the source cycle performs no
scan and leaves the cursor unchanged — but no reconnect is attempted,
contradicting the claim that a reconnect is attempted in this case. -/
theorem C6_counterexample :
    (process_source_chain_events (baseState emptyStore)
      unavailableSourceInput).2.reconnect_attempted = false ∧
    (process_source_chain_events (baseState emptyStore)
      unavailableSourceInput).2.log_query_made = false ∧
    (process_source_chain_events (baseState emptyStore)
      unavailableSourceInput).1 = baseState emptyStore ∧
    unavailableSourceInput.connected = true ∧
    unavailableSourceInput.height = none := by
  refine ⟨by decide, by decide, by decide, by decide, by decide⟩

/-- C6 amended: when the connector is disconnected, the cycle performs no
scan (no log query), leaves the state — including the cursor — unchanged, and
attempts a reconnect.  When the connector is connected but the current-height
query reports Unavailable (-1 sentinel, cursor at least -1), the cycle
likewise performs no scan and leaves the state unchanged, but no reconnect is
attempted — connectivity is only re-checked on the next cycle.  Both
directions behave identically. -/
theorem C6_skip_amended :
    (∀ (st : ListenerState) (inp : SourceScanInput), inp.connected = false →
      process_source_chain_events st inp = (st, { reconnect_attempted := true })) ∧
    (∀ (st : ListenerState) (inp : DestScanInput), inp.connected = false →
      process_destination_chain_events st inp =
        (st, { reconnect_attempted := true })) ∧
    (∀ (st : ListenerState) (inp : SourceScanInput), inp.connected = true →
      inp.height = none → (-1 : Int) ≤ st.last_processed_source_block →
      process_source_chain_events st inp = (st, {})) ∧
    (∀ (st : ListenerState) (inp : DestScanInput), inp.connected = true →
      inp.height = none → (-1 : Int) ≤ st.last_processed_dest_block →
      process_destination_chain_events st inp = (st, {})) ∧
    ({} : SourceScanReport).reconnect_attempted = false ∧
    ({} : DestScanReport).reconnect_attempted = false ∧
    ({ reconnect_attempted := true } : SourceScanReport).log_query_made =
      false ∧
    ({ reconnect_attempted := true } : DestScanReport).log_query_made =
      false := by
  refine ⟨?_, ?_, ?_, ?_, rfl, rfl, rfl, rfl⟩
  · intro st inp hc
    exact process_source_disconnected hc
  · intro st inp hc
    exact process_dest_disconnected hc
  · intro st inp hc hh hcur
    refine process_source_uptodate hc ?_
    have : get_latest_block_number inp.connected inp.height = -1 := by
      rw [hc, hh]
      rfl
    rw [this]
    exact hcur
  · intro st inp hc hh hcur
    refine process_dest_uptodate hc ?_
    have : get_latest_block_number inp.connected inp.height = -1 := by
      rw [hc, hh]
      rfl
    rw [this]
    exact hcur

/-- C6 amended witness: concrete instantiations of the disconnected and the
Unavailable-height cases on the base state. -/
theorem C6_skip_amended_witness :
    process_source_chain_events (baseState emptyStore)
      { connected := false, height := none, logs := none } =
      (baseState emptyStore, { reconnect_attempted := true }) ∧
    process_source_chain_events (baseState emptyStore) unavailableSourceInput =
      (baseState emptyStore, {}) ∧
    process_destination_chain_events (baseState emptyStore)
      { connected := true, height := none, logs := none } =
      (baseState emptyStore, {}) := by
  refine ⟨C6_skip_amended.1 _ _ rfl, C6_skip_amended.2.2.1 _ _ rfl rfl
    (by decide), C6_skip_amended.2.2.2.1 _ _ rfl rfl (by decide)⟩

/-- C7: over any sequence of source-chain logs handled in one cycle, the
number of created records equals the number of successfully decoded deposit
events (undecodable logs create nothing), the store grows by exactly that
many records, and — for the store state passed to the relay dispatch right
after each creation — the freshly created record is present with status
PENDING (its id is the one returned by `initiate_transaction`). -/
theorem C7_pending_creation (e : Option String) (m : TxManager)
    (logs : List (Option (DepositEvent × RelayResponse))) :
    (process_logs_source e m logs).2.1.length =
      logs.countP (fun o => o.isSome) ∧
    (process_logs_source e m logs).1.transactions.length =
      m.transactions.length + logs.countP (fun o => o.isSome) ∧
    ∀ (m' : TxManager) (ev : DepositEvent),
      (∀ i ∈ txIds m', i < m'.nextId) →
      lookupTx (m'.initiate_transaction ev).1 (m'.initiate_transaction ev).2 =
        some (newRecord m' ev) ∧
      (newRecord m' ev).status = .PENDING := by
  refine ⟨(process_logs_count e logs m).1, (process_logs_count e logs m).2, ?_⟩
  intro m' ev hb
  exact ⟨lookupTx_initiate_fresh ev hb, rfl⟩

/-- C7 witness: one decodable deposit log and one undecodable log create
exactly one record, and the concrete freshly created record is PENDING in the
store state that is passed to the dispatch. -/
theorem C7_pending_creation_witness :
    (process_logs_source (some "https://api.example.com/relay") emptyStore
      [some (⟨"0xabc", sampleArgs⟩, .httpStatus 200 "ok"), none]).2.1.length =
      1 ∧
    lookupTx (emptyStore.initiate_transaction ⟨"0xabc", sampleArgs⟩).1
        (emptyStore.initiate_transaction ⟨"0xabc", sampleArgs⟩).2 =
      some (newRecord emptyStore ⟨"0xabc", sampleArgs⟩) ∧
    (newRecord emptyStore ⟨"0xabc", sampleArgs⟩).status = .PENDING := by
  have H := C7_pending_creation (some "https://api.example.com/relay")
    emptyStore [some (⟨"0xabc", sampleArgs⟩, .httpStatus 200 "ok"), none]
  exact ⟨H.1, H.2.2 emptyStore ⟨"0xabc", sampleArgs⟩ (by decide)⟩

/-- C8: listing by a status returns exactly the records having that status as
an order-preserving sublist of the insertion-ordered store (oldest first);
`initiate_transaction` appends the fresh id at the end, status updates leave
the id list untouched, and across both scan steps and whole cycles the stored
id list of the old state is a prefix of the new one — no record is ever
removed. -/
theorem C8_store_additive :
    (∀ (m : TxManager) (s : TransactionStatus) (r : TxRecord),
      r ∈ m.get_transactions_by_status s ↔ r ∈ m.transactions ∧ r.status = s) ∧
    (∀ (m : TxManager) (s : TransactionStatus),
      List.Sublist (m.get_transactions_by_status s) m.transactions) ∧
    (∀ (m : TxManager) (ev : DepositEvent),
      txIds (m.initiate_transaction ev).1 =
        txIds m ++ [(m.initiate_transaction ev).2]) ∧
    (∀ (m : TxManager) (i : Nat) (s : TransactionStatus) (d : UpdateDetails),
      txIds (m.update_transaction_status i s d) = txIds m) ∧
    (∀ (st : ListenerState) (inp : SourceScanInput),
      txIds st.tx_manager <+:
        txIds (process_source_chain_events st inp).1.tx_manager) ∧
    (∀ (st : ListenerState) (inp : DestScanInput),
      txIds st.tx_manager <+:
        txIds (process_destination_chain_events st inp).1.tx_manager) ∧
    (∀ (st : ListenerState) (inp : CycleInput),
      txIds st.tx_manager <+: txIds (run_iteration st inp).1.tx_manager) := by
  refine ⟨?_, ?_, ?_, ?_, ?_, ?_, ?_⟩
  · intro m s r
    constructor
    · intro h
      have := List.mem_filter.mp h
      exact ⟨this.1, by simpa using this.2⟩
    · intro h
      exact List.mem_filter.mpr ⟨h.1, by simpa using h.2⟩
  · intro m s
    exact List.filter_sublist _
  · intro m ev
    exact initiate_txIds m ev
  · intro m i s d
    exact update_txIds m i s d
  · exact process_source_txIds_extends
  · exact process_dest_txIds_extends
  · exact run_iteration_txIds_extends

/-- C8 witness: on the concrete one-record store, listing RELAYED returns the
RELAYED record, and a status update leaves the stored id list unchanged. -/
theorem C8_store_additive_witness :
    sampleRecord 0 .RELAYED ∈ relayedStore1.get_transactions_by_status
      .RELAYED ∧
    txIds (relayedStore1.update_transaction_status 0 .COMPLETED {}) =
      txIds relayedStore1 :=
  ⟨(C8_store_additive.1 relayedStore1 .RELAYED (sampleRecord 0 .RELAYED)).mpr
      ⟨by decide, by decide⟩,
    C8_store_additive.2.2.2.1 relayedStore1 0 .COMPLETED {}⟩

/-- C1: during a destination scan that observes a height above the cursor and
a non-empty log batch, with at most as many decoded completion events as
there are RELAYED records: the i-th decoded event of the batch is matched
positionally to the i-th oldest record of the RELAYED snapshot taken at the
start of the batch — that record ends COMPLETED with that event's destination
transaction hash attached — while every later RELAYED record is left exactly
as it was (still RELAYED); so with T1, T2, T3 RELAYED in creation order and
two events, T1 and T2 become COMPLETED in that order and T3 stays RELAYED. -/
theorem C1_fifo_correlation (st : ListenerState) (inp : DestScanInput)
    (h : Nat) (ls : List (Option CompletionEvent))
    (hwf : StoreWF st.tx_manager)
    (hc : inp.connected = true)
    (hh : inp.height = some h)
    (hcur : st.last_processed_dest_block < (h : Int))
    (hlogs : inp.logs = some ls)
    (hk : (ls.filterMap id).length ≤
      (st.tx_manager.get_transactions_by_status .RELAYED).length) :
    ∀ i (hi : i < (st.tx_manager.get_transactions_by_status .RELAYED).length),
      ((st.tx_manager.get_transactions_by_status .RELAYED).get
        ⟨i, hi⟩).status = .RELAYED ∧
      (∀ h2 : i < (ls.filterMap id).length,
        ∃ r', lookupTx (process_destination_chain_events st inp).1.tx_manager
            ((st.tx_manager.get_transactions_by_status .RELAYED).get
              ⟨i, hi⟩).id = some r' ∧
          r'.status = .COMPLETED ∧
          r'.dest_tx_hash =
            some ((ls.filterMap id).get ⟨i, h2⟩).transactionHash) ∧
      ((ls.filterMap id).length ≤ i →
        lookupTx (process_destination_chain_events st inp).1.tx_manager
            ((st.tx_manager.get_transactions_by_status .RELAYED).get
              ⟨i, hi⟩).id =
          some ((st.tx_manager.get_transactions_by_status .RELAYED).get
            ⟨i, hi⟩)) := by
  intro i hi
  have hgt : st.last_processed_dest_block <
      get_latest_block_number inp.connected inp.height := by
    rw [hc, hh, latest_some]
    exact hcur
  have hstat := ((relayed_props hwf).1 _
    (List.get_mem (st.tx_manager.get_transactions_by_status .RELAYED) i hi)).2
  refine ⟨hstat, ?_⟩
  cases ls with
  | nil =>
    rw [process_dest_nologs hc hgt (Or.inr hlogs)]
    refine ⟨fun h2 => absurd h2 (by simp), fun _ => ?_⟩
    exact ((relayed_props hwf).1 _
      (List.get_mem (st.tx_manager.get_transactions_by_status .RELAYED) i hi)).1
  | cons l ls' =>
    by_cases hrel : (st.tx_manager.get_transactions_by_status
        .RELAYED).isEmpty = true
    · exfalso
      rw [List.isEmpty_iff] at hrel
      rw [hrel] at hi
      simp at hi
    · have hrel' : (st.tx_manager.get_transactions_by_status
          .RELAYED).isEmpty = false := by simpa using hrel
      have hok : (complete_loop st.tx_manager
          (st.tx_manager.get_transactions_by_status .RELAYED)
          (l :: ls')).2 = false :=
        (complete_loop_raised (l :: ls') st.tx_manager _).mpr hk
      rw [process_dest_completes hc hgt hlogs hrel' hok]
      exact complete_loop_spec (l :: ls') st.tx_manager _
        (fun r hr => ((relayed_props hwf).1 r hr).1) (relayed_props hwf).2
        hk i hi

/-- C1 witness: T1, T2, T3 RELAYED (ids 0, 1, 2, created in order) and two
completion events in one batch — T1 and T2 end COMPLETED carrying the first
and second destination hashes respectively, T3 is untouched and RELAYED. -/
theorem C1_fifo_correlation_witness :
    (∃ r', lookupTx (process_destination_chain_events (baseState relayedStore3)
        twoCompletionsInput).1.tx_manager 0 = some r' ∧
      r'.status = .COMPLETED ∧ r'.dest_tx_hash = some "0xd1") ∧
    (∃ r', lookupTx (process_destination_chain_events (baseState relayedStore3)
        twoCompletionsInput).1.tx_manager 1 = some r' ∧
      r'.status = .COMPLETED ∧ r'.dest_tx_hash = some "0xd2") ∧
    lookupTx (process_destination_chain_events (baseState relayedStore3)
        twoCompletionsInput).1.tx_manager 2 =
      some (sampleRecord 2 .RELAYED) ∧
    (sampleRecord 2 .RELAYED).status = .RELAYED := by
  have H := C1_fifo_correlation (baseState relayedStore3) twoCompletionsInput
    5 [some { transactionHash := "0xd1" }, some { transactionHash := "0xd2" }]
    ⟨by decide, by decide⟩ rfl rfl (by decide) rfl (by decide)
  exact ⟨(H 0 (by decide)).2.1 (by decide), (H 1 (by decide)).2.1 (by decide),
    (H 2 (by decide)).2.2 (by decide), rfl⟩

/-- C2 counterexample: on the destination scan, with the connector connected,
observed height 5 strictly above the cursor 0, a non-empty log list returned
(one unrecognized log) and no RELAYED transaction, the cycle returns early
and the cursor stays at 0 instead of advancing to 5. -/
theorem C2_counterexample :
    (process_destination_chain_events (baseState emptyStore)
      { connected := true, height := some 5,
        logs := some [none] }).1.last_processed_dest_block = 0 ∧
    get_latest_block_number true (some 5) = 5 ∧
    (baseState emptyStore).last_processed_dest_block < 5 := by
  refine ⟨by decide, by decide, by decide⟩

/-- C2 amended: cursors never move backward, on either scan and over whole
cycles.  The source cursor advances to the observed height whenever it
exceeds the cursor, unconditionally — even with no logs or a failed log
query.  The destination cursor does so too, except that when the log query
returns a non-empty list it also requires at least one RELAYED record (else
the scan returns early, cursor unchanged) and that the decoded completion
events do not outnumber the RELAYED records (else the correlation raises,
cursor unchanged). -/
theorem C2_cursor_amended :
    (∀ (st : ListenerState) (inp : SourceScanInput),
      st.last_processed_source_block ≤
        (process_source_chain_events st inp).1.last_processed_source_block) ∧
    (∀ (st : ListenerState) (inp : DestScanInput),
      st.last_processed_dest_block ≤
        (process_destination_chain_events st inp).1.last_processed_dest_block) ∧
    (∀ (st : ListenerState) (inp : CycleInput),
      st.last_processed_source_block ≤
        (run_iteration st inp).1.last_processed_source_block ∧
      st.last_processed_dest_block ≤
        (run_iteration st inp).1.last_processed_dest_block) ∧
    (∀ (st : ListenerState) (inp : SourceScanInput) (h : Nat),
      inp.connected = true → inp.height = some h →
      st.last_processed_source_block < (h : Int) →
      (process_source_chain_events st inp).1.last_processed_source_block =
        (h : Int)) ∧
    (∀ (st : ListenerState) (inp : DestScanInput) (h : Nat),
      inp.connected = true → inp.height = some h →
      st.last_processed_dest_block < (h : Int) →
      (inp.logs = none ∨ inp.logs = some [] ∨
        ∃ l ls, inp.logs = some (l :: ls) ∧
          (st.tx_manager.get_transactions_by_status .RELAYED).isEmpty =
            false ∧
          ((l :: ls).filterMap id).length ≤
            (st.tx_manager.get_transactions_by_status .RELAYED).length) →
      (process_destination_chain_events st inp).1.last_processed_dest_block =
        (h : Int)) := by
  refine ⟨process_source_cursor_mono, process_dest_cursor_mono,
    fun st inp => ⟨run_iteration_src_cursor_mono st inp,
      run_iteration_dest_cursor_mono st inp⟩, ?_, ?_⟩
  · intro st inp h hc hh hcur
    have hgt : st.last_processed_source_block <
        get_latest_block_number inp.connected inp.height := by
      rw [hc, hh, latest_some]
      exact hcur
    rw [process_source_scans hc hgt]
    simp only []
    rw [hc, hh, latest_some]
  · intro st inp h hc hh hcur hcase
    have hgt : st.last_processed_dest_block <
        get_latest_block_number inp.connected inp.height := by
      rw [hc, hh, latest_some]
      exact hcur
    have hlat : get_latest_block_number inp.connected inp.height = (h : Int) := by
      rw [hc, hh, latest_some]
    rcases hcase with hcase | hcase | ⟨l, ls, hlogs, hrel, hlen⟩
    · rw [process_dest_nologs hc hgt (Or.inl hcase)]
      exact hlat
    · rw [process_dest_nologs hc hgt (Or.inr hcase)]
      exact hlat
    · have hok : (complete_loop st.tx_manager
          (st.tx_manager.get_transactions_by_status .RELAYED)
          (l :: ls)).2 = false :=
        (complete_loop_raised (l :: ls) st.tx_manager _).mpr hlen
      rw [process_dest_completes hc hgt hlogs hrel hok]
      exact hlat

/-- C2 amended witness: concrete cycles — a source scan at observed height 5
advances the source cursor from 0 to 5; a destination scan with a failed log
query at observed height 7 advances the destination cursor from 0 to 7. -/
theorem C2_cursor_amended_witness :
    (process_source_chain_events (baseState emptyStore)
      { connected := true, height := some 5,
        logs := none }).1.last_processed_source_block = (5 : Int) ∧
    (process_destination_chain_events (baseState emptyStore)
      { connected := true, height := some 7,
        logs := none }).1.last_processed_dest_block = (7 : Int) := by
  exact ⟨C2_cursor_amended.2.2.2.1 (baseState emptyStore)
      { connected := true, height := some 5, logs := none } 5 rfl rfl
      (by decide),
    C2_cursor_amended.2.2.2.2 (baseState emptyStore)
      { connected := true, height := some 7, logs := none } 7 rfl rfl
      (by decide) (Or.inl rfl)⟩

/-- C3: any freshly built listener state has a well-formed store;
well-formedness is preserved by every run; over any run starting from a
well-formed store, each record's status evolves along `status_can_reach`,
the reachability order of the state machine PENDING → RELAYED → COMPLETED
with PENDING/RELAYED → FAILED; that order is antisymmetric — so no status is
ever revisited over a run — and nothing is reachable from the terminal
statuses COMPLETED and FAILED except themselves. -/
theorem C3_status_machine :
    (∀ sbs sbd sc dc sh dh ep poll,
      StoreWF (init_listener sbs sbd sc dc sh dh ep poll).tx_manager) ∧
    (∀ st st', StoreWF st.tx_manager → Run st st' →
      StoreWF st'.tx_manager) ∧
    (∀ st st', StoreWF st.tx_manager → Run st st' →
      ∀ j r r', lookupTx st.tx_manager j = some r →
        lookupTx st'.tx_manager j = some r' →
        status_can_reach r.status r'.status = true) ∧
    (∀ a b, status_can_reach a b = true → status_can_reach b a = true →
      a = b) ∧
    (∀ b, status_can_reach .COMPLETED b = true → b = .COMPLETED) ∧
    (∀ b, status_can_reach .FAILED b = true → b = .FAILED) := by
  refine ⟨?_, ?_, ?_, by decide, by decide, by decide⟩
  · intro sbs sbd sc dc sh dh ep poll
    exact ⟨List.nodup_nil, by simp [init_listener, txIds]⟩
  · intro st st' hwf hrun
    exact StoreWF_Run hrun hwf
  · intro st st' hwf hrun j r r' hhh hhh'
    obtain ⟨r'', h'', hreach⟩ := Run_lookup_reach_ex hrun hwf hhh
    have heq : r'' = r' := by
      rw [h''] at hhh'
      exact Option.some.inj hhh'
    rw [← heq]
    exact hreach

/-- C3 witness: the PENDING record of a concrete well-formed store is still
PENDING over the empty run, and the initial listener store is well-formed. -/
theorem C3_status_machine_witness :
    status_can_reach .PENDING .PENDING = true ∧
    StoreWF (init_listener none none true true (some 0) (some 0)
      (some "https://api.example.com/relay") none).tx_manager := by
  refine ⟨C3_status_machine.2.2.1 (baseState pendingStore1)
      (baseState pendingStore1) ⟨by decide, by decide⟩
      Relation.ReflTransGen.refl 0 (sampleRecord 0 .PENDING)
      (sampleRecord 0 .PENDING) (by decide) (by decide),
    C3_status_machine.1 none none true true (some 0) (some 0)
      (some "https://api.example.com/relay") none⟩

/-- C9: when no starting block is configured for a chain and the startup
height query succeeds, the corresponding scan cursor of the freshly built
listener equals that startup height; over any subsequent run the cursor
never drops below it, and every scanned range on that chain starts at least
one block above the startup height — historical blocks are never scanned. -/
theorem C9_startup_cursor (ep : Option String) (poll : Option Nat)
    (H Hd : Nat) :
    (init_listener none none true true (some H) (some Hd) ep
      poll).last_processed_source_block = (H : Int) ∧
    (init_listener none none true true (some H) (some Hd) ep
      poll).last_processed_dest_block = (Hd : Int) ∧
    ∀ st, Run (init_listener none none true true (some H) (some Hd) ep poll)
        st →
      ((H : Int) ≤ st.last_processed_source_block ∧
        (Hd : Int) ≤ st.last_processed_dest_block) ∧
      (∀ (inp : SourceScanInput) (fb tb : Int),
        (process_source_chain_events st inp).2.scanned_range = some (fb, tb) →
        (H : Int) + 1 ≤ fb) ∧
      (∀ (inp : DestScanInput) (fb tb : Int),
        (process_destination_chain_events st inp).2.scanned_range =
          some (fb, tb) →
        (Hd : Int) + 1 ≤ fb) := by
  refine ⟨by simp [init_listener, get_latest_block_number],
    by simp [init_listener, get_latest_block_number], ?_⟩
  intro st hrun
  have hcur : (H : Int) ≤ st.last_processed_source_block ∧
      (Hd : Int) ≤ st.last_processed_dest_block := by
    induction hrun with
    | refl => simp [init_listener, get_latest_block_number]
    | tail hab hbc ih =>
      obtain ⟨inp, rfl⟩ := hbc
      exact ⟨le_trans ih.1 (run_iteration_src_cursor_mono _ inp),
        le_trans ih.2 (run_iteration_dest_cursor_mono _ inp)⟩
  refine ⟨hcur, ?_, ?_⟩
  · intro inp fb tb hrange
    rcases process_source_range_cases st inp with hnone | ⟨hsome, _⟩
    · rw [hnone] at hrange
      cases hrange
    · rw [hsome] at hrange
      have : fb = st.last_processed_source_block + 1 := by
        have := (Prod.mk.injEq _ _ _ _).mp (Option.some.inj hrange.symm)
        exact this.1
      rw [this]
      have := hcur.1
      omega
  · intro inp fb tb hrange
    rcases process_dest_range_cases st inp with hnone | ⟨hsome, _⟩
    · rw [hnone] at hrange
      cases hrange
    · rw [hsome] at hrange
      have : fb = st.last_processed_dest_block + 1 := by
        have := (Prod.mk.injEq _ _ _ _).mp (Option.some.inj hrange.symm)
        exact this.1
      rw [this]
      have := hcur.2
      omega

/-- C9 witness: with startup heights 100 and 200 and no configured start
blocks, the fresh state's cursors are 100 and 200, and a first source scan at
observed height 105 reports the range [101, 105], whose start is above the
startup height 100. -/
theorem C9_startup_cursor_witness :
    (init_listener none none true true (some 100) (some 200)
      (some "https://api.example.com/relay")
      none).last_processed_source_block = (100 : Int) ∧
    (100 : Int) + 1 ≤ 101 := by
  have Hthm := C9_startup_cursor (some "https://api.example.com/relay")
    none 100 200
  have h := Hthm.2.2 _ Relation.ReflTransGen.refl
  exact ⟨Hthm.1, h.2.1 { connected := true, height := some 105, logs := none }
    101 105 (by decide)⟩

/-- C10: a concrete destination batch with two recognized completion events
against a single RELAYED record makes the correlation loop index the head of
the emptied working list: the error escapes the destination scan (`raised`),
the destination cursor stays at 0 for that cycle although the observed
height 5 exceeds it, and the main-loop iteration catches it at the loop
boundary and sleeps the 60-second extended backoff instead of the 15-second
poll interval. -/
theorem C10_overflow_raises :
    (relayedStore3.get_transactions_by_status .RELAYED).length = 3 ∧
    (relayedStore1.get_transactions_by_status .RELAYED).length = 1 ∧
    (([some { transactionHash := "0xd1" }, some { transactionHash := "0xd2" }] :
      List (Option CompletionEvent)).filterMap id).length = 2 ∧
    (process_destination_chain_events (baseState relayedStore1)
      twoCompletionsInput).2.raised = true ∧
    (process_destination_chain_events (baseState relayedStore1)
      twoCompletionsInput).1.last_processed_dest_block = 0 ∧
    get_latest_block_number true (some 5) = 5 ∧
    (baseState relayedStore1).last_processed_dest_block < 5 ∧
    (run_iteration (baseState relayedStore1) overflowCycleInput).2 = 60 ∧
    (baseState relayedStore1).poll_interval = 15 ∧ 15 < 60 := by
  refine ⟨by decide, by decide, by decide, by decide, by decide, by decide,
    by decide, by decide, by decide, by decide⟩

end BridgeListener
